import Mathlib

/-!
Verification of the Mujibot conversation engine against its specification.

Shallow embedding of the Go sources:
* `internal/session/session.go`   — session store, message trimming, LRU eviction
* `internal/tools/manager.go`     — tool dispatcher, path sandbox, execute_command
* `internal/agent/router.go`      — agent engine turn loop and panic supervisor
* `internal/llm/provider.go`      — retry loop of the LLM client
* `internal/memory` (unnamed)     — flat-file memory store
* `internal/confirmation` (unnamed) — confirmation gate polling loop

Machine integers are modelled as `Nat` (no overflow is reachable in the
modelled code paths), byte sizes of file contents as `String.length`
(all concrete inputs used in witnesses are ASCII, where the two agree),
wall-clock time as discrete second ticks, and I/O (file system, shell,
HTTP) as explicit oracle parameters.  Fallible Go functions returning
`(T, error)` become `Except String T`.
-/

namespace Mujibot


/-- Go struct `session.ToolCall` (`internal/session/session.go`), with the
nested `Function` struct flattened into `name`/`arguments`. -/
structure ToolCall where
  id : String
  typ : String
  name : String
  arguments : String
deriving Repr, DecidableEq

/-- Go struct `session.Message`.  The `Timestamp` field is dropped: no
modelled claim mentions it. -/
structure Message where
  role : String
  content : String
  toolCalls : List ToolCall := []
deriving Repr, DecidableEq

/-- The trimming step shared by `Manager.AddMessage` and
`Manager.AddToolCallMessage`: `if len > maxMessages, keep the last
maxMessages` (`session.Messages = session.Messages[len-maxMessages:]`). -/
def trimMessages (maxMessages : Nat) (msgs : List Message) : List Message :=
  if msgs.length > maxMessages then msgs.drop (msgs.length - maxMessages) else msgs

/-- `Manager.AddMessage` (session.go:129-146), restricted to its effect on
the message list (the `LastActivity` update is not modelled). -/
def addMessage (maxMessages : Nat) (msgs : List Message) (role content : String) :
    List Message :=
  trimMessages maxMessages (msgs ++ [{ role := role, content := content }])

/-- `Manager.AddToolCallMessage` (session.go:149-167). -/
def addToolCallMessage (maxMessages : Nat) (msgs : List Message)
    (role content : String) (toolCalls : List ToolCall) : List Message :=
  trimMessages maxMessages (msgs ++ [{ role := role, content := content, toolCalls := toolCalls }])

/-- The session store's LRU bookkeeping (session.go): the list of session
keys, most recently used first (`lruList` front = most recent).  A key's
session payload is irrelevant to the eviction discipline. -/
abbrev SessionKeys := List String

/-- `Manager.evictLRU` (session.go:222-233): remove the back (least
recently used) element; no-op on an empty list. -/
def evictLRU (keys : SessionKeys) : SessionKeys :=
  keys.dropLast

/-- `Manager.GetOrCreate` (session.go:77-112), restricted to its effect on
the key list: an existing key moves to the front; a new key first evicts
the LRU entry when `len(sessions) >= maxSessions`, then is pushed to the
front. -/
def getOrCreate (maxSessions : Nat) (keys : SessionKeys) (k : String) : SessionKeys :=
  if k ∈ keys then
    k :: keys.erase k
  else if keys.length ≥ maxSessions then
    k :: evictLRU keys
  else
    k :: keys

/-- Go `strings.Contains` on character lists: `pat` occurs as a contiguous
substring of `l`. -/
def listContainsSub (l pat : List Char) : Bool :=
  pat.isPrefixOf l ||
    match l with
    | [] => false
    | _ :: rest => listContainsSub rest pat

/-- Go `strings.Contains`. -/
def strContains (s pat : String) : Bool :=
  listContainsSub s.data pat.data

/-- Go `strings.ToLower`, ASCII case folding (all pattern sets in the
modelled code are ASCII). -/
def strToLower (s : String) : String :=
  ⟨s.data.map Char.toLower⟩

/-- The built-in dangerous-pattern set of `isDangerousCommand`
(manager.go:223-249). -/
def dangerousPatterns : List String :=
  ["rm -rf", "rm -r", "rm -f", "del /", "format", "fdisk", "mkfs", "dd if=",
   "chmod 777", "chown -R", "> /dev/", ":(){ :|:& };:", "wget | sh",
   "curl | sh", "curl | bash"]

/-- `isDangerousCommand` (manager.go:223-249): the lower-cased command
contains some lower-cased pattern. -/
def isDangerousCommand (cmd : String) : Bool :=
  dangerousPatterns.any fun pattern =>
    strContains (strToLower cmd) (strToLower pattern)

/-- The shell-metacharacter set of `hasCommandInjection`
(manager.go:251-271). -/
def injectionPatterns : List String :=
  ["$(", "$\x7b", "`", ";", "&&", "||", "|", "\n", "\r", ">>", "<<"]

/-- The scan loop of `hasCommandInjection`: walk the command; a quote
character toggles `quoted`; outside quotes, any injection pattern starting
at the current position is rejected.  (Go toggles `quoted` before testing
the patterns at the same index, as modelled here.) -/
def injScan (quoted : Bool) : List Char → Bool
  | [] => false
  | c :: rest =>
    let quoted' := if c = '\'' || c = '"' then !quoted else quoted
    if !quoted' && injectionPatterns.any (fun p => p.data.isPrefixOf (c :: rest)) then
      true
    else
      injScan quoted' rest

/-- `hasCommandInjection` (manager.go:251-271). -/
def hasCommandInjection (cmd : String) : Bool :=
  injScan false cmd.data

/-- The blocklist scan of `ExecuteCommandTool.Execute`
(manager.go:513-520): the first configured entry contained
(case-insensitively) in the command, if any. -/
def findBlocked (blockedCommands : List String) (cmd : String) : Option String :=
  blockedCommands.find? fun blocked =>
    strContains (strToLower cmd) (strToLower blocked)

/-- The tool-manager configuration fields consulted by
`ExecuteCommandTool.Execute`. -/
structure ToolsConfig where
  confirmDangerous : Bool
  unattendedMode : Bool
  blockedCommands : List String
deriving Repr

/-- Observable events of one `execute_command` invocation.  `gateDecision`
would be a Confirmation Gate (`ConfirmationManager.RequestConfirmation`)
verdict; `run` is the spawn of the shell process (`cmd.CombinedOutput`). -/
inductive ExecEvent where
  | gateDecision (approved : Bool)
  | run (cmd : String)
deriving Repr, DecidableEq

/-- `ExecuteCommandTool.Execute` (manager.go:503-565), with the shell
abstracted as an oracle `shell : command ↦ combined output or error`
(timeout and exit-status details live inside the oracle; they follow the
spawn and do not affect gating).  The returned event list records, in
order, every Confirmation Gate decision and process spawn performed:
the Go code never calls the `ConfirmationManager`, so no `gateDecision`
event is ever emitted — the only gate is the model-supplied boolean
argument `confirm` (`args["confirm"]`, defaulting to `false`). -/
def executeCommand (cfg : ToolsConfig) (shell : String → Except String String)
    (command : String) (confirm : Bool) : Except String String × List ExecEvent :=
  if hasCommandInjection command then
    (.error "potential command injection detected", [])
  else
    let blockedCommand := findBlocked cfg.blockedCommands command
    let isDangerous := isDangerousCommand command
    let needsConfirmation := blockedCommand.isSome || isDangerous
    if needsConfirmation && (cfg.confirmDangerous && !cfg.unattendedMode) && !confirm then
      (.error "confirmation required: set confirm=true to execute", [])
    else
      (shell command, [.run command])

/-- C1 as stated, at one point: if the command runs, some approved
Confirmation Gate decision occurs (the full claim also demands it comes
first, a fortiori false when no decision occurs at all). -/
def confirmationGateClaim (cfg : ToolsConfig) (shell : String → Except String String)
    (command : String) (confirm : Bool) : Prop :=
  ExecEvent.run command ∈ (executeCommand cfg shell command confirm).2 →
    ExecEvent.gateDecision true ∈ (executeCommand cfg shell command confirm).2

/-- A slash-separated Go path: an absolute flag and the list of path
components (`filepath.IsAbs` distinguishes the two input shapes). -/
structure GoPath where
  absolute : Bool
  comps : List String
deriving Repr, DecidableEq

/-- `filepath.Clean` on an absolute path, component-wise: `.` and empty
components vanish, `..` pops the previous component (and is dropped at the
root). -/
def cleanAbs (comps : List String) : List String :=
  comps.foldl
    (fun acc c =>
      if c = "" || c = "." then acc
      else if c = ".." then acc.dropLast
      else acc ++ [c])
    []

/-- Outcome of `filepath.EvalSymlinks` on one path, as an oracle value:
resolution to a real path, an `os.IsNotExist` error, or any other error. -/
inductive ResolveResult where
  | resolved (p : List String)
  | notExist
  | failed
deriving Repr, DecidableEq

/-- A file-system symlink oracle: cleaned absolute component list ↦
`EvalSymlinks` outcome. -/
abbrev SymlinkFS := List String → ResolveResult

/-- The symlink resolution `sanitizePath` effectively uses for the
candidate path: the resolved path, or the cleaned path itself when it does
not exist (manager.go:202-208). -/
def resolveOrSelf (fs : SymlinkFS) (p : List String) : List String :=
  match fs p with
  | .resolved r => r
  | _ => p

/-- Length of the longest common component prefix, as compared by
`filepath.Rel`. -/
def commonLen : List String → List String → Nat
  | a :: as, b :: bs => if a = b then commonLen as bs + 1 else 0
  | _, _ => 0

/-- The test `strings.HasPrefix(rel, "..")` applied to
`rel := filepath.Rel(base, target)` for cleaned absolute `base` and
`target` (manager.go:215-216): the relative walk starts with `..` exactly
when the common prefix falls short of `base`, or the first remaining
target component itself starts with the two characters `..`.
(`filepath.Rel` cannot fail and never yields an absolute result here, so
the other two rejection tests of the Go code are constantly false.) -/
def relStartsDotDot (base target : List String) : Bool :=
  if commonLen base target < base.length then true
  else
    match target.drop (commonLen base target) with
    | [] => false
    | c :: _ => ("..".data).isPrefixOf c.data

/-- The final containment test of `Manager.sanitizePath`
(manager.go:210-220): resolve `workDir` and reject when the relative walk
from the real work dir to the real path leaves the sandbox; on success the
cleaned (pre-resolution) `path` is returned, exactly as the Go code does. -/
def sanitizeRel (fs : SymlinkFS) (workDir path realPath : List String) :
    Except String (List String) :=
  match fs workDir with
  | .resolved realWorkDir =>
    if relStartsDotDot realWorkDir realPath then
      .error "path is outside work directory"
    else
      .ok path
  | _ => .error "failed to resolve work directory"

/-- The symlink-resolution step of `Manager.sanitizePath`
(manager.go:202-208): a missing file falls back to the cleaned path, any
other resolution error aborts. -/
def sanitizeResolve (fs : SymlinkFS) (workDir path : List String) :
    Except String (List String) :=
  match fs path with
  | .failed => .error "failed to resolve path"
  | .resolved r => sanitizeRel fs workDir path r
  | .notExist => sanitizeRel fs workDir path path

/-- `Manager.sanitizePath` (manager.go:195-221): join a relative path to
`workDir`, clean, resolve symlinks, and apply the containment check. -/
def sanitizePath (fs : SymlinkFS) (workDir : List String) (p : GoPath) :
    Except String (List String) :=
  sanitizeResolve fs workDir (cleanAbs (if p.absolute then p.comps else workDir ++ p.comps))

/-- Per-file oracles for `ReadFileTool.Execute`: `os.Stat` size and
`os.ReadFile` content (`none` = I/O error). -/
structure FileOracle where
  statSize : List String → Option Nat
  readContent : List String → Option String

/-- `ReadFileTool.Execute` (manager.go:332-359), returning the result
together with the list of paths touched on disk, in order (one `Stat`,
then one `ReadFile`).  A sandbox rejection touches nothing. -/
def readFileTool (fs : SymlinkFS) (io : FileOracle) (workDir : List String)
    (p : GoPath) : Except String String × List (List String) :=
  match sanitizePath fs workDir p with
  | .error e => (.error e, [])
  | .ok safePath =>
    match io.statSize safePath with
    | none => (.error "failed to stat file", [safePath])
    | some size =>
      if size > 1024 * 1024 then
        (.error "file too large (max 1MB)", [safePath])
      else
        match io.readContent safePath with
        | none => (.error "failed to read file", [safePath, safePath])
        | some content => (.ok content, [safePath, safePath])

/-- The cleaned join of a tool's path argument against the work directory —
the candidate path that `sanitizePath` vets and returns on success. -/
def cleanJoin (workDir : List String) (p : GoPath) : List String :=
  cleanAbs (if p.absolute then p.comps else workDir ++ p.comps)

/-- Display form of an absolute component path (Go keeps plain strings;
the models use component lists). -/
def pathString (comps : List String) : String :=
  "/" ++ String.intercalate "/" comps

/-- `WriteFileTool.Execute` (manager.go:391-418): sanitize, `os.MkdirAll`
on `filepath.Dir(safePath)` (the parent, `dropLast` on components), then
`os.WriteFile` on the sanitized path.  The oracles return whether each OS
call succeeds; the access trace records the target of every call made. -/
def writeFileTool (fs : SymlinkFS) (mkdirAll : List String → Bool)
    (writeFile : List String → String → Bool) (workDir : List String)
    (p : GoPath) (content : String) : Except String String × List (List String) :=
  match sanitizePath fs workDir p with
  | .error e => (.error e, [])
  | .ok safePath =>
    if mkdirAll safePath.dropLast then
      if writeFile safePath content then
        (.ok ("File written successfully: " ++ pathString safePath),
         [safePath.dropLast, safePath])
      else
        (.error "failed to write file", [safePath.dropLast, safePath])
    else
      (.error "failed to create directory", [safePath.dropLast])

/-- One `os.ReadDir` entry, as consumed by `ListDirectoryTool.Execute`. -/
structure DirEntry where
  name : String
  isDir : Bool
deriving Repr, DecidableEq

/-- `ListDirectoryTool.Execute` (manager.go:445-471): sanitize (the `"."`
default for a missing argument is resolved by the caller into `p`), then
one `os.ReadDir` on the sanitized path, formatting each entry as
`"[DIR] name"` or `"[FILE] name"`, one per line. -/
def listDirectoryTool (fs : SymlinkFS)
    (readDir : List String → Option (List DirEntry)) (workDir : List String)
    (p : GoPath) : Except String String × List (List String) :=
  match sanitizePath fs workDir p with
  | .error e => (.error e, [])
  | .ok safePath =>
    match readDir safePath with
    | none => (.error "failed to read directory", [safePath])
    | some entries =>
      (.ok (entries.foldl
        (fun acc entry =>
          acc ++ (if entry.isDir then "[DIR]" else "[FILE]") ++ " " ++ entry.name ++ "\n")
        ""), [safePath])

/-- Go `strings.Replace(s, old, new, 1)`: replace the first occurrence of
`old` (an empty `old` matches at the front). -/
def replaceFirst (old new : List Char) : List Char → List Char
  | [] => if old = [] then new else []
  | c :: rest =>
    if old.isPrefixOf (c :: rest) then new ++ (c :: rest).drop old.length
    else c :: replaceFirst old new rest

/-- Go `strings.Replace` with limit 1, on strings. -/
def strReplaceFirst (s old new : String) : String :=
  ⟨replaceFirst old.data new.data s.data⟩

/-- `ApplyPatchTool.Execute` (manager.go:649-692): sanitize, `os.ReadFile`
the sanitized path, require `old_string` to occur, replace its first
occurrence, `os.WriteFile` the result back. -/
def applyPatchTool (fs : SymlinkFS) (readFile : List String → Option String)
    (writeFile : List String → String → Bool) (workDir : List String)
    (p : GoPath) (oldStr newStr : String) : Except String String × List (List String) :=
  match sanitizePath fs workDir p with
  | .error e => (.error e, [])
  | .ok safePath =>
    match readFile safePath with
    | none => (.error "failed to read file", [safePath])
    | some oldContent =>
      if ¬ strContains oldContent oldStr then
        (.error "old_string not found in file", [safePath])
      else
        if writeFile safePath (strReplaceFirst oldContent oldStr newStr) then
          (.ok ("Patch applied successfully to " ++ pathString safePath),
           [safePath, safePath])
        else
          (.error "failed to write file", [safePath, safePath])

/-- Go `strings.Split(s, "\n")` (`Split("", "\n") = [""]`). -/
def splitNlAux (acc : List Char) : List Char → List String
  | [] => [⟨acc.reverse⟩]
  | c :: rest =>
    if c = '\n' then ⟨acc.reverse⟩ :: splitNlAux [] rest
    else splitNlAux (c :: acc) rest

/-- Go `strings.Split(s, "\n")`. -/
def splitLines (s : String) : List String :=
  splitNlAux [] s.data

/-- ASCII approximation of the character class trimmed by Go
`strings.TrimSpace` (the grep inputs of interest are ASCII). -/
def isSpaceChar (c : Char) : Bool :=
  c = ' ' || c = '\t' || c = '\n' || c = '\r'

/-- Go `strings.TrimSpace`. -/
def trimSpace (s : String) : String :=
  ⟨((s.data.dropWhile isSpaceChar).reverse.dropWhile isSpaceChar).reverse⟩

/-- Go `filepath.Rel(base, target)` rendered as a string, for cleaned
absolute component paths (as used by grep's match display). -/
def goRel (base target : List String) : String :=
  match List.replicate (base.length - commonLen base target) ".." ++
      target.drop (commonLen base target) with
  | [] => "."
  | parts => String.intercalate "/" parts

/-- One node visited by `filepath.Walk`, as the walk oracle reports it:
its path, whether it is a directory, its `os.FileInfo` size, and the
content `os.ReadFile` would deliver (`none` = read error, skipped). -/
structure WalkEntry where
  path : List String
  isDir : Bool
  size : Nat
  content : Option String
deriving Repr, DecidableEq

/-- The per-file line loop of `GrepTool.Execute` (manager.go:1169-1179):
collect `"rel:line: trimmed"` for every line the regex matches; after
appending the 50th overall match the walk is aborted (`filepath.SkipAll`),
signalled here by the `Bool`.  Returns the collected lines, the updated
overall match count, and the abort flag. -/
def grepLines (reMatch : String → Bool) (rel : String) :
    List String → Nat → Nat → List String × Nat × Bool
  | [], _, count => ([], count, false)
  | line :: rest, idx, count =>
    if reMatch line then
      let entry := rel ++ ":" ++ toString (idx + 1) ++ ": " ++ trimSpace line
      if count + 1 ≥ 50 then ([entry], count + 1, true)
      else
        match grepLines reMatch rel rest (idx + 1) (count + 1) with
        | (entries, count', stop) => (entry :: entries, count', stop)
    else grepLines reMatch rel rest (idx + 1) count

/-- The `filepath.Walk` callback loop of `GrepTool.Execute`
(manager.go:1144-1182): directories, `include`-mismatched names, files
over 1 MiB are skipped without a read; other files are read (the access is
recorded even when reading fails, which is then skipped); `SkipAll` stops
the walk, so later files are neither read nor visited.  Returns the match
lines and the list of paths read. -/
def grepWalk (reMatch : String → Bool) (includeMatch : String → Bool)
    (workDir : List String) : List WalkEntry → Nat → List String × List (List String)
  | [], _ => ([], [])
  | entry :: rest, count =>
    if entry.isDir then grepWalk reMatch includeMatch workDir rest count
    else if ¬ includeMatch ((entry.path.getLast?).getD "") then
      grepWalk reMatch includeMatch workDir rest count
    else if entry.size > 1024 * 1024 then
      grepWalk reMatch includeMatch workDir rest count
    else
      match entry.content with
      | none =>
        match grepWalk reMatch includeMatch workDir rest count with
        | (lines, reads) => (lines, entry.path :: reads)
      | some content =>
        match grepLines reMatch (goRel workDir entry.path) (splitLines content) 0 count with
        | (lines, _, true) => (lines, [entry.path])
        | (lines, count', false) =>
          match grepWalk reMatch includeMatch workDir rest count' with
          | (lines', reads) => (lines ++ lines', entry.path :: reads)

/-- `GrepTool.Execute` (manager.go:1113-1193): sanitize the search path
(defaults `"."`/`"*"` for path/include are resolved by the caller into `p`
and `includeMatch`), compile the regex (the engine abstracted as the
`reCompile` oracle, `none` = invalid pattern — no file is touched), then
walk the sanitized root (the `walk` oracle lists the visited nodes in
order).  The access trace records the walk root and every file read. -/
def grepTool (fs : SymlinkFS) (reCompile : String → Option (String → Bool))
    (includeMatch : String → Bool) (walk : List String → List WalkEntry)
    (workDir : List String) (p : GoPath) (pattern : String) :
    Except String String × List (List String) :=
  match sanitizePath fs workDir p with
  | .error e => (.error e, [])
  | .ok safePath =>
    match reCompile pattern with
    | none => (.error "invalid pattern", [])
    | some reMatch =>
      match grepWalk reMatch includeMatch workDir (walk safePath) 0 with
      | (lines, reads) =>
        (if lines = [] then .ok "No matches found"
         else .ok (String.intercalate "\n" lines),
         safePath :: reads)

/-- The spec's "lies inside work_dir (after symlink resolution)" for one
path: the resolved work directory is a component-prefix of the path's
symlink resolution. -/
def insidePath (fs : SymlinkFS) (workDir q : List String) : Prop :=
  ∃ realWorkDir, fs workDir = .resolved realWorkDir ∧
    realWorkDir.isPrefixOf (resolveOrSelf fs q) = true

/-- C2's dichotomy for one tool invocation: either the path argument,
joined to the work dir, cleaned and symlink-resolved, lies inside the work
directory, or the tool returned an error having touched no file. -/
def sandboxOutcome (fs : SymlinkFS) (workDir : List String) (p : GoPath)
    (out : Except String String × List (List String)) : Prop :=
  insidePath fs workDir (cleanJoin workDir p) ∨
    ∃ e, out.1 = .error e ∧ out.2 = []

/-- Fixture for the sandbox witness: a file system whose only symlink
redirects `/secret` to itself. -/
def sandboxFsW : SymlinkFS :=
  fun l => if l = ["secret"] then .resolved ["secret"] else .resolved l

/-- Fixture for the sandbox witness: stat/read oracles for `read_file`. -/
def sandboxIoW : FileOracle :=
  ⟨fun _ => some 3, fun _ => some "abc"⟩

/-- Fixture for the sandbox witness: the relative path argument
`sub/x.txt`. -/
def sandboxPW : GoPath := ⟨false, ["sub", "x.txt"]⟩

/-- Fixture for the sandbox witness: `os.MkdirAll` always succeeds. -/
def mkdirAllW : List String → Bool := fun _ => true

/-- Fixture for the sandbox witness: `os.WriteFile` always succeeds. -/
def writeFileW : List String → String → Bool := fun _ _ => true

/-- Fixture for the sandbox witness: a directory with one plain file. -/
def readDirW : List String → Option (List DirEntry) :=
  fun _ => some [⟨"x.txt", false⟩]

/-- Fixture for the sandbox witness: `os.ReadFile` content. -/
def readFileW : List String → Option String := fun _ => some "hello old world"

/-- Fixture for the sandbox witness: a regex engine matching lines that
contain the literal pattern. -/
def reCompileW : String → Option (String → Bool) :=
  fun pattern => some (fun line => strContains line pattern)

/-- Fixture for the sandbox witness: the `"*"` include glob. -/
def includeMatchW : String → Bool := fun _ => true

/-- Fixture for the sandbox witness: a walk seeing one small file under
the root. -/
def walkW : List String → List WalkEntry :=
  fun root => [⟨root ++ ["x.txt"], false, 15, some "hello old world"⟩]

/-- One entry of `Manager.GetToolDefinitions` (manager.go:121-134),
reduced to the fields the turn loop forwards; the JSON-schema `parameters`
payload is irrelevant to the modelled claims. -/
structure ToolDef where
  name : String
  description : String
deriving Repr, DecidableEq

/-- Go struct `llm.Response` (`internal/llm/provider.go`), without the
token-usage counters. -/
structure LLMResponse where
  content : String
  toolCalls : List ToolCall
deriving Repr, DecidableEq

/-- `Agent.buildMessages` (router.go:267-286): prepend the composed system
message when the agent has a system prompt, then the session snapshot.
The composed prompt (`buildSystemPrompt`, which reads the clock, the tool
registry and the memory store) is abstracted as the parameter
`composed`. -/
def buildMessages (sysPrompt composed : String) (msgs : List Message) : List Message :=
  if sysPrompt ≠ "" then
    { role := "system", content := composed } :: msgs
  else
    msgs

/-- The `tool` message recorded for one tool call (router.go:168-177):
`executeToolCall` errors are folded into the text (`"Error: %v"`), and the
result is labelled `"Tool: <name>\nResult: <text>"`. -/
def toolResultMessage (toolExec : ToolCall → Except String String) (tc : ToolCall) :
    Message :=
  { role := "tool",
    content := "Tool: " ++ tc.name ++ "\nResult: " ++
      (match toolExec tc with
       | .ok r => r
       | .error e => "Error: " ++ e) }

/-- `Agent.ProcessMessage` (router.go:132-191).  Oracles: `provider n` is
the n-th `Provider.Chat` outcome of this turn; `toolExec` is
`executeToolCall` (argument parsing and dispatch).  Returns the reply, the
final session message list, and the trace of LLM invocations — each
`(messages sent, tool definitions passed)`; the Go code passes `tools` on
the first call and `nil` (here `[]`) on the post-tool call. -/
def processMessage (maxMessages : Nat) (provider : Nat → Except String LLMResponse)
    (toolExec : ToolCall → Except String String) (sysPrompt composed : String)
    (defs : List ToolDef) (msgs : List Message) (content : String) :
    Except String String × List Message × List (List Message × List ToolDef) :=
  let msgs1 := addMessage maxMessages msgs "user" content
  let call1 := (buildMessages sysPrompt composed msgs1, defs)
  match provider 0 with
  | .error e => (.error ("llm error: " ++ e), msgs1, [call1])
  | .ok resp =>
    if resp.toolCalls.isEmpty then
      (.ok resp.content, addMessage maxMessages msgs1 "assistant" resp.content, [call1])
    else
      let msgs2 := addToolCallMessage maxMessages msgs1 "assistant" resp.content resp.toolCalls
      let msgs3 := resp.toolCalls.foldl
        (fun acc tc => addMessage maxMessages acc "tool" (toolResultMessage toolExec tc).content)
        msgs2
      let call2 := (buildMessages sysPrompt composed msgs3, ([] : List ToolDef))
      match provider 1 with
      | .error e => (.error ("llm error: " ++ e), msgs3, [call1, call2])
      | .ok resp2 =>
        (.ok resp2.content, addMessage maxMessages msgs3 "assistant" resp2.content,
         [call1, call2])

/-- Fixture for the C5 witness: the first LLM response, carrying two tool
calls. -/
def respW1 : LLMResponse :=
  ⟨"", [⟨"1", "function", "read_file", "{}"⟩, ⟨"2", "function", "grep", "{}"⟩]⟩

/-- Fixture for the C5 witness: the post-tool LLM response. -/
def respW2 : LLMResponse := ⟨"done", []⟩

/-- Fixture for the C5 witness: the scripted provider. -/
def providerW (n : Nat) : Except String LLMResponse :=
  if n = 0 then .ok respW1 else .ok respW2

/-- Fixture for the C5 witness: the tool executor. -/
def toolExecW (tc : ToolCall) : Except String String := .ok ("ran " ++ tc.name)

/-- Outcome of one `sendRequest` (provider.go:152-208): a parsed response,
or a failure — a transport error (`status = none`) or any HTTP status
other than 200 (`status = some s`; the Go code turns every non-200 status,
4xx included, into an error). -/
inductive SendResult where
  | success (resp : LLMResponse)
  | failure (status : Option Nat)
deriving Repr, DecidableEq

/-- Whether a `sendRequest` outcome is a failure. -/
def SendResult.isFailure : SendResult → Bool
  | .success _ => false
  | .failure _ => true

/-- The attempt loop of `OpenAIProvider.doRequest` (provider.go:131-149),
with `send n` the outcome of the n-th `sendRequest`.  Returns the result,
the number of attempts performed, and the list of sleep durations in
seconds (the code sleeps `attempt * time.Second` before every retry).
`fuel` counts the attempts still allowed; `doRequest` starts it at
`maxRetries + 1` (the Go loop runs `attempt = 0 .. maxRetries`). -/
def runAttempts (send : Nat → SendResult) : Nat → Nat → Except String LLMResponse × Nat × List Nat
  | 0, _ => (.error "llm request failed after retries", 0, [])
  | fuel + 1, attempt =>
    let sleeps := if attempt > 0 then [attempt] else []
    match send attempt with
    | .success resp => (.ok resp, 1, sleeps)
    | .failure _ =>
      match runAttempts send fuel (attempt + 1) with
      | (res, n, later) => (res, n + 1, sleeps ++ later)

/-- `OpenAIProvider.doRequest` (provider.go:131-149). -/
def doRequest (maxRetries : Nat) (send : Nat → SendResult) :
    Except String LLMResponse × Nat × List Nat :=
  runAttempts send (maxRetries + 1) 0

/-- The memory manager (`internal/memory`): `memoryDir` is empty exactly
when the feature is disabled (`NewManager` with `Enabled = false`), and
`IsEnabled` tests `memoryDir != ""`. -/
structure MemManager where
  memoryDir : String
  maxFileSize : Nat
deriving Repr, DecidableEq

/-- `Manager.IsEnabled`. -/
def MemManager.isEnabled (m : MemManager) : Bool :=
  m.memoryDir ≠ ""

/-- The store's on-disk state under the memory directory: file name ↦
content.  Daily notes live at `memory/<date>.md`, the long-term note at
`MEMORY.md`; a missing entry is a missing file (`os.IsNotExist`). -/
structure MemState where
  files : List (String × String)
deriving Repr, DecidableEq

/-- File lookup in the modelled state. -/
def MemState.lookup (st : MemState) (name : String) : Option String :=
  (st.files.find? (fun f => f.1 == name)).map (·.2)

/-- File creation/overwrite in the modelled state. -/
def MemState.setFile (st : MemState) (name content : String) : MemState :=
  ⟨(name, content) :: st.files.filter (fun f => f.1 != name)⟩

/-- The path of a daily note (`filepath.Join(memoryDir, "memory", date + ".md")`,
with the directory prefix dropped since the state is rooted there). -/
def dailyPath (date : String) : String :=
  "memory/" ++ date ++ ".md"

/-- The path of the long-term note. -/
def longTermPath : String := "MEMORY.md"

/-- `Manager.ReadDailyNote` (part_006:81-96): disabled or missing file
reads as the empty string. -/
def readDailyNote (m : MemManager) (st : MemState) (date : String) :
    Except String String :=
  if m.memoryDir = "" then .ok ""
  else
    match st.lookup (dailyPath date) with
    | none => .ok ""
    | some content => .ok content

/-- `Manager.WriteDailyNote` (part_006:99-130): a no-op when disabled;
errors when the existing file is already larger than `maxFileSize`;
otherwise appends a timestamped section (`"\n### <hh:mm:ss>\n\n<content>\n"`,
the clock abstracted as `timestamp`).  The Go code performs no write
before its size check, so the error branch leaves the state untouched. -/
def writeDailyNote (m : MemManager) (st : MemState) (date content timestamp : String) :
    Except String MemState :=
  if m.memoryDir = "" then .ok st
  else
    let existing := st.lookup (dailyPath date)
    if (existing.getD "").length > m.maxFileSize ∧ existing.isSome then
      .error "daily note file too large"
    else
      .ok (st.setFile (dailyPath date)
        ((existing.getD "") ++ "\n### " ++ timestamp ++ "\n\n" ++ content ++ "\n"))

/-- `Manager.ReadLongTermMemory` (part_006:133-148). -/
def readLongTermMemory (m : MemManager) (st : MemState) : Except String String :=
  if m.memoryDir = "" then .ok ""
  else
    match st.lookup longTermPath with
    | none => .ok ""
    | some content => .ok content

/-- `Manager.WriteLongTermMemory` (part_006:151-169): a no-op when
disabled; errors (before writing) when the new content exceeds
`maxFileSize`; otherwise replaces `MEMORY.md`. -/
def writeLongTermMemory (m : MemManager) (st : MemState) (content : String) :
    Except String MemState :=
  if m.memoryDir = "" then .ok st
  else if content.length > m.maxFileSize then
    .error "memory content too large"
  else
    .ok (st.setFile longTermPath content)

/-- `Manager.AppendToLongTermMemory` (part_006:239-258): prepend the
existing body and an HTML-comment timestamp, then write through
`WriteLongTermMemory` (which enforces the cap on the combined content). -/
def appendToLongTermMemory (m : MemManager) (st : MemState) (content timestamp : String) :
    Except String MemState :=
  if m.memoryDir = "" then .ok st
  else
    let existing := match readLongTermMemory m st with
      | .ok c => c
      | .error _ => ""
    let newContent :=
      (if existing ≠ "" then existing ++ "\n\n" else "") ++
        "<!-- " ++ timestamp ++ " -->\n" ++ content
    writeLongTermMemory m st newContent

/-- `Manager.GetDailyNotes` (part_006:58-78): concatenate the last `days`
days' notes, newest first, separated by a horizontal rule and prefixed
with a date heading; `dates i` is the date string `i` days back (the
clock abstracted). -/
def getDailyNotes (m : MemManager) (st : MemState) (dates : Nat → String) (days : Nat) :
    String :=
  if m.memoryDir = "" then ""
  else
    (List.range days).foldl
      (fun acc i =>
        match readDailyNote m st (dates i) with
        | .ok content =>
          if content ≠ "" then
            (if acc ≠ "" then acc ++ "\n\n---\n\n" else acc) ++
              "## " ++ dates i ++ "\n\n" ++ content
          else acc
        | .error _ => acc)
      ""

/-- `Manager.GetMemoryContext` (part_006:213-236): long-term body plus the
last two days of daily notes. -/
def getMemoryContext (m : MemManager) (st : MemState) (dates : Nat → String) : String :=
  if m.memoryDir = "" then ""
  else
    let longTerm := match readLongTermMemory m st with
      | .ok c => c
      | .error _ => ""
    let part1 :=
      if longTerm ≠ "" then "## Long-term Memory\n\n" ++ longTerm ++ "\n\n" else ""
    let dailyNotes := getDailyNotes m st dates 2
    if dailyNotes ≠ "" then part1 ++ "## Recent Daily Notes\n\n" ++ dailyNotes else part1

/-- `confirmation.ConfirmationStatus` (`internal/confirmation`). -/
inductive ConfStatus where
  | pending
  | approved
  | rejected
  | timeout
deriving Repr, DecidableEq

/-- The gate timeout set by `NewConfirmationManager`
(`timeout: 5 * time.Minute`), in seconds. -/
def confirmationTimeoutSeconds : Nat := 5 * 60

/-- `ConfirmationManager.waitForResponse` (part_012:110-139): the caller
polls on a one-second ticker; at each tick it first checks expiry
(`time.Now().After(req.ExpiresAt)`, which with `ExpiresAt = created + 300 s`
holds at tick `n` exactly when `n > 300`), marks the request `timeout` and
returns not-approved; otherwise a non-`pending` status resolves the wait.
`sched n` is the externally-mutated request status visible at tick `n`
(`Approve`/`Reject` write it); the result pairs the Go `(approved, error?)`
return — `none` = approved without error, `some s` = not approved with the
request's final status `s`.  `fuel` bounds the recursion; the loop itself
is unbounded in Go but never exceeds `301` ticks (proved below). -/
def waitForResponse (sched : Nat → ConfStatus) : Nat → Nat → Option (Bool × ConfStatus)
  | 0, _ => none
  | fuel + 1, n =>
    if n > confirmationTimeoutSeconds then
      some (false, .timeout)
    else if sched n ≠ .pending then
      some (sched n = .approved, sched n)
    else
      waitForResponse sched fuel (n + 1)

/-- The Go runtime outcome of one agent turn body: a normal return of
`(reply, error?)`, or a panic. -/
inductive GoResult (α : Type) where
  | ret (a : α)
  | panicked (msg : String)
deriving Repr, DecidableEq

/-- `Router.ProcessMessage` (router.go:110-118): the call to
`agent.ProcessMessage` (abstracted as `body`) runs under
`defer func() { if rec := recover(); rec != nil { log } }()`.
On a panic the deferred `recover` stops unwinding and logs, and the
function — whose result variables are unnamed — returns their zero values:
the empty string and a `nil` error (`none`).  `some e` models a non-nil
error returned by the agent itself. -/
def routerProcessMessage (body : GoResult (String × Option String)) :
    String × Option String :=
  match body with
  | .ret r => r
  | .panicked _ => ("", none)

theorem trimMessages_length_le (maxMessages : Nat) (msgs : List Message) :
    (trimMessages maxMessages msgs).length ≤ maxMessages := by
  unfold trimMessages
  split
  · simp only [List.length_drop]
    omega
  · omega

theorem addMessage_at_capacity (maxMessages : Nat) (msgs : List Message)
    (role content : String) (hmax : 1 ≤ maxMessages) (hlen : msgs.length = maxMessages) :
    addMessage maxMessages msgs role content =
      msgs.drop 1 ++ [{ role := role, content := content }] := by
  unfold addMessage trimMessages
  have h : (msgs ++ [({ role := role, content := content } : Message)]).length =
      maxMessages + 1 := by simp [hlen]
  rw [if_pos (by omega)]
  rw [h]
  have : maxMessages + 1 - maxMessages = 1 := by omega
  rw [this, List.drop_append_eq_append_drop]
  simp [hlen, hmax]

theorem addToolCallMessage_at_capacity (maxMessages : Nat) (msgs : List Message)
    (role content : String) (toolCalls : List ToolCall)
    (hmax : 1 ≤ maxMessages) (hlen : msgs.length = maxMessages) :
    addToolCallMessage maxMessages msgs role content toolCalls =
      msgs.drop 1 ++ [{ role := role, content := content, toolCalls := toolCalls }] := by
  unfold addToolCallMessage trimMessages
  have h : (msgs ++ [({ role := role, content := content, toolCalls := toolCalls } : Message)]).length =
      maxMessages + 1 := by simp [hlen]
  rw [if_pos (by omega)]
  rw [h]
  have : maxMessages + 1 - maxMessages = 1 := by omega
  rw [this, List.drop_append_eq_append_drop]
  simp [hlen, hmax]

/-- C3: after every append (`AddMessage` or `AddToolCallMessage`) the
session holds at most `max_messages` messages, and appending to a list
already at `max_messages` keeps the new message while dropping exactly the
oldest one, preserving the order of the rest. -/
theorem session_message_bound_and_overflow (maxMessages : Nat) (msgs : List Message)
    (role content : String) (toolCalls : List ToolCall)
    (hmax : 1 ≤ maxMessages) (hlen : msgs.length ≤ maxMessages) :
    (addMessage maxMessages msgs role content).length ≤ maxMessages ∧
    (addToolCallMessage maxMessages msgs role content toolCalls).length ≤ maxMessages ∧
    (msgs.length = maxMessages →
      addMessage maxMessages msgs role content =
        msgs.drop 1 ++ [{ role := role, content := content }] ∧
      addToolCallMessage maxMessages msgs role content toolCalls =
        msgs.drop 1 ++ [{ role := role, content := content, toolCalls := toolCalls }]) := by
  refine ⟨trimMessages_length_le _ _, trimMessages_length_le _ _, fun hfull => ⟨?_, ?_⟩⟩
  · exact addMessage_at_capacity maxMessages msgs role content hmax hfull
  · exact addToolCallMessage_at_capacity maxMessages msgs role content toolCalls hmax hfull

/-- C3 witness: a session of 3 messages at `max_messages = 3` accepts one
more append by dropping the head. -/
theorem session_message_bound_and_overflow_witness :
    (1 ≤ 3 ∧ ([⟨"user", "a", []⟩, ⟨"assistant", "b", []⟩, ⟨"user", "c", []⟩] : List Message).length ≤ 3) ∧
    ((addMessage 3 [⟨"user", "a", []⟩, ⟨"assistant", "b", []⟩, ⟨"user", "c", []⟩] "assistant" "d").length ≤ 3 ∧
     (addToolCallMessage 3 [⟨"user", "a", []⟩, ⟨"assistant", "b", []⟩, ⟨"user", "c", []⟩] "assistant" "d" []).length ≤ 3 ∧
     (([⟨"user", "a", []⟩, ⟨"assistant", "b", []⟩, ⟨"user", "c", []⟩] : List Message).length = 3 →
       addMessage 3 [⟨"user", "a", []⟩, ⟨"assistant", "b", []⟩, ⟨"user", "c", []⟩] "assistant" "d" =
         ([⟨"user", "a", []⟩, ⟨"assistant", "b", []⟩, ⟨"user", "c", []⟩] : List Message).drop 1 ++ [⟨"assistant", "d", []⟩] ∧
       addToolCallMessage 3 [⟨"user", "a", []⟩, ⟨"assistant", "b", []⟩, ⟨"user", "c", []⟩] "assistant" "d" [] =
         ([⟨"user", "a", []⟩, ⟨"assistant", "b", []⟩, ⟨"user", "c", []⟩] : List Message).drop 1 ++ [⟨"assistant", "d", []⟩])) :=
  ⟨⟨by decide, by decide⟩,
   session_message_bound_and_overflow 3 _ "assistant" "d" [] (by decide) (by decide)⟩

/-- C4: the key-list length never exceeds `max_sessions`; creating a new
key at capacity evicts exactly the least-recently-touched key (the back of
the LRU list); and the literal S2 scenario: `max_sessions = 3`, create
A, B, C in order, touch A, create D — then B is gone and the store holds
exactly D, A, C (three sessions). -/
theorem session_store_lru_bound_and_eviction (maxSessions : Nat) (keys : SessionKeys)
    (k : String) (hmax : 1 ≤ maxSessions) (hlen : keys.length ≤ maxSessions) :
    (getOrCreate maxSessions keys k).length ≤ maxSessions ∧
    (k ∉ keys → keys.length = maxSessions →
      getOrCreate maxSessions keys k = k :: keys.dropLast) ∧
    (getOrCreate 3 (getOrCreate 3 (getOrCreate 3 (getOrCreate 3 (getOrCreate 3 [] "A") "B") "C") "A") "D" =
      ["D", "A", "C"]) := by
  refine ⟨?_, ?_, by decide⟩
  · unfold getOrCreate evictLRU
    split
    · rename_i hmem
      have := List.length_erase_of_mem hmem
      have hpos : 1 ≤ keys.length := List.length_pos.mpr (List.ne_nil_of_mem hmem)
      simp only [List.length_cons, this]
      omega
    · split
      · rename_i hge
        simp only [List.length_cons, List.length_dropLast]
        omega
      · rename_i hlt
        simp only [List.length_cons]
        omega
  · intro hnot hfull
    unfold getOrCreate evictLRU
    rw [if_neg hnot, if_pos (by omega)]

/-- C4 witness: the LRU invariant at a concrete store of two keys with
`max_sessions = 2`, plus the closed S2 scenario carried by the theorem. -/
theorem session_store_lru_bound_and_eviction_witness :
    (1 ≤ 2 ∧ (["B", "A"] : SessionKeys).length ≤ 2) ∧
    ((getOrCreate 2 ["B", "A"] "C").length ≤ 2 ∧
     ("C" ∉ (["B", "A"] : SessionKeys) → (["B", "A"] : SessionKeys).length = 2 →
       getOrCreate 2 ["B", "A"] "C" = "C" :: (["B", "A"] : SessionKeys).dropLast) ∧
     (getOrCreate 3 (getOrCreate 3 (getOrCreate 3 (getOrCreate 3 (getOrCreate 3 [] "A") "B") "C") "A") "D" =
       ["D", "A", "C"])) :=
  ⟨⟨by decide, by decide⟩,
   session_store_lru_bound_and_eviction 2 ["B", "A"] "C" (by decide) (by decide)⟩

/-- C1 counterexample: with `confirm_dangerous = true`,
`unattended_mode = false` and the dangerous command `rm -rf /tmp/stuff`
carrying `confirm = true`, the command is executed with no Confirmation
Gate decision of any kind: the gate is never consulted by
`execute_command`. -/
theorem execute_command_no_gate_counterexample :
    isDangerousCommand "rm -rf /tmp/stuff" = true ∧
    (executeCommand ⟨true, false, []⟩ (fun _ => .ok "") "rm -rf /tmp/stuff" true).2 =
      [ExecEvent.run "rm -rf /tmp/stuff"] ∧
    ¬ confirmationGateClaim ⟨true, false, []⟩ (fun _ => .ok "") "rm -rf /tmp/stuff" true := by
  refine ⟨by decide, by decide, ?_⟩
  intro h
  have := h (by decide)
  revert this
  decide

/-- C1 amended: while `confirm_dangerous = true` and
`unattended_mode = false`, a blocked or dangerous (injection-free) command
is gated by the call's own `confirm` argument, not by the Confirmation
Gate: it is executed exactly when `confirm = true`, and with
`confirm = false` the tool returns an error having spawned nothing; the
`ConfirmationManager` is never consulted (no gate decision is ever
recorded). -/
theorem execute_command_confirm_arg_gating (cfg : ToolsConfig)
    (shell : String → Except String String) (command : String) (confirm : Bool)
    (hconf : cfg.confirmDangerous = true) (hunatt : cfg.unattendedMode = false)
    (hinj : hasCommandInjection command = false)
    (hneeds : (findBlocked cfg.blockedCommands command).isSome = true ∨
      isDangerousCommand command = true) :
    (ExecEvent.run command ∈ (executeCommand cfg shell command confirm).2 ↔ confirm = true) ∧
    (confirm = false → (executeCommand cfg shell command confirm).2 = [] ∧
      ∃ e, (executeCommand cfg shell command confirm).1 = .error e) ∧
    (∀ b, ExecEvent.gateDecision b ∉ (executeCommand cfg shell command confirm).2) := by
  have hn : ((findBlocked cfg.blockedCommands command).isSome || isDangerousCommand command) = true := by
    rcases hneeds with h | h <;> simp [h]
  unfold executeCommand
  rw [hinj]
  simp only [Bool.false_eq_true, if_false, hn, hconf, hunatt]
  cases confirm with
  | true =>
    constructor
    · simp
    · constructor
      · intro h; exact absurd h (by simp)
      · intro b; simp
  | false =>
    constructor
    · simp
    · constructor
      · intro _
        constructor
        · simp
        · exact ⟨_, rfl⟩
      · intro b; simp

/-- C1 amended witness: the blocked command `reboot now` (blocklist entry
`reboot`) with `confirm = false` is refused without a spawn, and the same
call with `confirm = true` would run — all with no gate decision. -/
theorem execute_command_confirm_arg_gating_witness :
    ((⟨true, false, ["reboot"]⟩ : ToolsConfig).confirmDangerous = true ∧
     (⟨true, false, ["reboot"]⟩ : ToolsConfig).unattendedMode = false ∧
     hasCommandInjection "reboot now" = false ∧
     (findBlocked ["reboot"] "reboot now").isSome = true) ∧
    ((ExecEvent.run "reboot now" ∈
        (executeCommand ⟨true, false, ["reboot"]⟩ (fun _ => .ok "") "reboot now" false).2 ↔
        (false : Bool) = true) ∧
     ((false : Bool) = false →
        (executeCommand ⟨true, false, ["reboot"]⟩ (fun _ => .ok "") "reboot now" false).2 = [] ∧
        ∃ e, (executeCommand ⟨true, false, ["reboot"]⟩ (fun _ => .ok "") "reboot now" false).1 = .error e) ∧
     (∀ b, ExecEvent.gateDecision b ∉
        (executeCommand ⟨true, false, ["reboot"]⟩ (fun _ => .ok "") "reboot now" false).2)) :=
  ⟨⟨rfl, rfl, by decide, by decide⟩,
   execute_command_confirm_arg_gating ⟨true, false, ["reboot"]⟩ (fun _ => .ok "")
     "reboot now" false rfl rfl (by decide) (Or.inl (by decide))⟩

theorem commonLen_eq_length_then_isPrefixOf (base : List String) :
    ∀ target : List String, base.length ≤ commonLen base target →
      base.isPrefixOf target = true := by
  induction base with
  | nil => intro target _; simp [List.isPrefixOf]
  | cons a as ih =>
    intro target h
    cases target with
    | nil => simp [commonLen] at h
    | cons b bs =>
      simp only [commonLen] at h
      by_cases hab : a = b
      · subst hab
        rw [if_pos rfl] at h
        simp only [List.length_cons] at h
        have := ih bs (by omega)
        simp [List.isPrefixOf, this]
      · rw [if_neg hab] at h
        simp at h

theorem relStartsDotDot_false_isPrefixOf (base target : List String)
    (h : relStartsDotDot base target = false) : base.isPrefixOf target = true := by
  unfold relStartsDotDot at h
  by_cases hc : commonLen base target < base.length
  · simp [hc] at h
  · exact commonLen_eq_length_then_isPrefixOf base target (by omega)

theorem sanitizeRel_ok (fs : SymlinkFS) (workDir path realPath out : List String)
    (h : sanitizeRel fs workDir path realPath = .ok out) :
    out = path ∧ ∃ realWorkDir, fs workDir = .resolved realWorkDir ∧
      realWorkDir.isPrefixOf realPath = true := by
  unfold sanitizeRel at h
  cases hwd : fs workDir with
  | resolved rw' =>
    rw [hwd] at h
    dsimp only at h
    by_cases hrel : relStartsDotDot rw' realPath = true
    · rw [if_pos hrel] at h; exact absurd h (by simp)
    · rw [if_neg hrel] at h
      simp only [Except.ok.injEq] at h
      exact ⟨h.symm, rw', rfl,
        relStartsDotDot_false_isPrefixOf _ _ (by simpa using hrel)⟩
  | notExist => rw [hwd] at h; exact absurd h (by simp)
  | failed => rw [hwd] at h; exact absurd h (by simp)

theorem sanitizePath_ok_inside (fs : SymlinkFS) (workDir : List String) (p : GoPath)
    (out : List String) (h : sanitizePath fs workDir p = .ok out) :
    ∃ realWorkDir, fs workDir = .resolved realWorkDir ∧
      realWorkDir.isPrefixOf (resolveOrSelf fs out) = true := by
  unfold sanitizePath sanitizeResolve at h
  cases hfs : fs (cleanAbs (if p.absolute then p.comps else workDir ++ p.comps)) with
  | failed => rw [hfs] at h; exact absurd h (by simp)
  | resolved r =>
    rw [hfs] at h
    obtain ⟨hout, rw', hwd, hpre⟩ := sanitizeRel_ok fs workDir _ r out h
    subst hout
    exact ⟨rw', hwd, by unfold resolveOrSelf; rw [hfs]; exact hpre⟩
  | notExist =>
    rw [hfs] at h
    obtain ⟨hout, rw', hwd, hpre⟩ := sanitizeRel_ok fs workDir _ _ out h
    subst hout
    exact ⟨rw', hwd, by unfold resolveOrSelf; rw [hfs]; exact hpre⟩

/-- C2: every path `read_file` touches on disk is, after joining to
`work_dir`, cleaning and symlink resolution, inside the (resolved) work
directory — component-prefix containment; equivalently, when the sandbox
check fails the tool errors out having touched nothing, which holds
because a touched path is exactly a `sanitizePath` success. -/
theorem read_file_sandbox (fs : SymlinkFS) (io : FileOracle) (workDir : List String)
    (p : GoPath) (q : List String) (hq : q ∈ (readFileTool fs io workDir p).2) :
    ∃ realWorkDir, fs workDir = .resolved realWorkDir ∧
      realWorkDir.isPrefixOf (resolveOrSelf fs q) = true := by
  unfold readFileTool at hq
  cases hs : sanitizePath fs workDir p with
  | error e => rw [hs] at hq; simp at hq
  | ok safePath =>
    rw [hs] at hq
    dsimp only at hq
    have hq' : q = safePath := by
      cases hstat : io.statSize safePath with
      | none => rw [hstat] at hq; simp at hq; exact hq
      | some size =>
        rw [hstat] at hq
        dsimp only at hq
        by_cases hsz : size > 1024 * 1024
        · rw [if_pos hsz] at hq; simp at hq; exact hq
        · rw [if_neg hsz] at hq
          cases hrd : io.readContent safePath with
          | none => rw [hrd] at hq; simp at hq; exact hq
          | some c => rw [hrd] at hq; simp at hq; exact hq
    subst hq'
    exact sanitizePath_ok_inside fs workDir p q hs

/-- C2 witness: reading the relative path `../secret` against work dir
`/work` touches nothing (sandbox error), while `sub/x.txt` is touched only
at `/work/sub/x.txt`, inside the work dir. -/
theorem read_file_sandbox_witness :
    (["work", "sub", "x.txt"] ∈
      (readFileTool
        (fun l => if l = ["secret"] then .resolved ["secret"] else .resolved l)
        ⟨fun _ => some 3, fun _ => some "abc"⟩
        ["work"] ⟨false, ["sub", "x.txt"]⟩).2) ∧
    (∃ realWorkDir,
      (fun l => if l = ["secret"] then ResolveResult.resolved ["secret"] else ResolveResult.resolved l)
          ["work"] = .resolved realWorkDir ∧
      realWorkDir.isPrefixOf
        (resolveOrSelf
          (fun l => if l = ["secret"] then .resolved ["secret"] else .resolved l)
          ["work", "sub", "x.txt"]) = true) ∧
    (readFileTool
        (fun l => if l = ["secret"] then .resolved ["secret"] else .resolved l)
        ⟨fun _ => some 3, fun _ => some "abc"⟩
        ["work"] ⟨false, ["..", "secret"]⟩).2 = [] :=
  ⟨by decide,
   read_file_sandbox
     (fun l => if l = ["secret"] then .resolved ["secret"] else .resolved l)
     ⟨fun _ => some 3, fun _ => some "abc"⟩
     ["work"] ⟨false, ["sub", "x.txt"]⟩ ["work", "sub", "x.txt"] (by decide),
   by decide⟩

theorem sanitizePath_ok_eq (fs : SymlinkFS) (workDir : List String) (p : GoPath)
    (out : List String) (h : sanitizePath fs workDir p = .ok out) :
    out = cleanJoin workDir p := by
  unfold sanitizePath sanitizeResolve at h
  cases hfs : fs (cleanAbs (if p.absolute then p.comps else workDir ++ p.comps)) with
  | failed => rw [hfs] at h; exact absurd h (by simp)
  | resolved r =>
    rw [hfs] at h
    exact (sanitizeRel_ok fs workDir _ r out h).1
  | notExist =>
    rw [hfs] at h
    exact (sanitizeRel_ok fs workDir _ _ out h).1

theorem sandboxOutcome_of_shape (fs : SymlinkFS) (workDir : List String) (p : GoPath)
    (k : List String → Except String String × List (List String)) :
    sandboxOutcome fs workDir p
      (match sanitizePath fs workDir p with
       | .error e => (.error e, [])
       | .ok safePath => k safePath) := by
  cases hs : sanitizePath fs workDir p with
  | error e => exact Or.inr ⟨e, rfl, rfl⟩
  | ok safePath =>
    have h1 := sanitizePath_ok_inside fs workDir p safePath hs
    have h2 := sanitizePath_ok_eq fs workDir p safePath hs
    exact Or.inl (h2 ▸ h1)

theorem list_directory_access_inside (fs : SymlinkFS)
    (readDir : List String → Option (List DirEntry)) (workDir : List String)
    (p : GoPath) (q : List String)
    (hq : q ∈ (listDirectoryTool fs readDir workDir p).2) :
    insidePath fs workDir q := by
  unfold listDirectoryTool at hq
  cases hs : sanitizePath fs workDir p with
  | error e => rw [hs] at hq; simp at hq
  | ok safePath =>
    rw [hs] at hq
    dsimp only at hq
    have hq' : q = safePath := by
      cases hrd : readDir safePath with
      | none => rw [hrd] at hq; simp at hq; exact hq
      | some entries => rw [hrd] at hq; simp at hq; exact hq
    subst hq'
    exact sanitizePath_ok_inside fs workDir p q hs

theorem apply_patch_access_inside (fs : SymlinkFS)
    (readFile : List String → Option String)
    (writeFile : List String → String → Bool) (workDir : List String)
    (p : GoPath) (oldStr newStr : String) (q : List String)
    (hq : q ∈ (applyPatchTool fs readFile writeFile workDir p oldStr newStr).2) :
    insidePath fs workDir q := by
  unfold applyPatchTool at hq
  cases hs : sanitizePath fs workDir p with
  | error e => rw [hs] at hq; simp at hq
  | ok safePath =>
    rw [hs] at hq
    dsimp only at hq
    have hq' : q = safePath := by
      cases hrd : readFile safePath with
      | none => rw [hrd] at hq; simp at hq; exact hq
      | some oldContent =>
        rw [hrd] at hq
        dsimp only at hq
        by_cases hcont : ¬ strContains oldContent oldStr = true
        · rw [if_pos hcont] at hq; simp at hq; exact hq
        · rw [if_neg hcont] at hq
          by_cases hw : writeFile safePath (strReplaceFirst oldContent oldStr newStr) = true
          · rw [if_pos hw] at hq; simp at hq; exact hq
          · rw [if_neg hw] at hq; simp at hq; exact hq
    subst hq'
    exact sanitizePath_ok_inside fs workDir p q hs

/-- C2: for every path argument given to a path-accepting tool
(`read_file`, `write_file`, `list_directory`, `apply_patch`, `grep`):
either the path — joined to `work_dir` when relative, cleaned, and
symlink-resolved — lies inside the (resolved) work directory, or the tool
returns an error and performs no file access (`sandboxOutcome`); for
`read_file`, `list_directory` and `apply_patch`, whose OS calls all target
the sanitized path itself, additionally every access in the trace is
inside the work directory. -/
theorem path_tools_sandbox (fs : SymlinkFS) (io : FileOracle)
    (mkdirAll : List String → Bool) (writeFile : List String → String → Bool)
    (readDir : List String → Option (List DirEntry))
    (readFile : List String → Option String)
    (reCompile : String → Option (String → Bool)) (includeMatch : String → Bool)
    (walk : List String → List WalkEntry)
    (workDir : List String) (p : GoPath) (content oldStr newStr pattern : String) :
    (∀ q ∈ (readFileTool fs io workDir p).2, insidePath fs workDir q) ∧
    (∀ q ∈ (listDirectoryTool fs readDir workDir p).2, insidePath fs workDir q) ∧
    (∀ q ∈ (applyPatchTool fs readFile writeFile workDir p oldStr newStr).2,
      insidePath fs workDir q) ∧
    sandboxOutcome fs workDir p (readFileTool fs io workDir p) ∧
    sandboxOutcome fs workDir p (writeFileTool fs mkdirAll writeFile workDir p content) ∧
    sandboxOutcome fs workDir p (listDirectoryTool fs readDir workDir p) ∧
    sandboxOutcome fs workDir p (applyPatchTool fs readFile writeFile workDir p oldStr newStr) ∧
    sandboxOutcome fs workDir p (grepTool fs reCompile includeMatch walk workDir p pattern) := by
  refine ⟨fun q hq => read_file_sandbox fs io workDir p q hq,
    fun q hq => list_directory_access_inside fs readDir workDir p q hq,
    fun q hq => apply_patch_access_inside fs readFile writeFile workDir p oldStr newStr q hq,
    ?_, ?_, ?_, ?_, ?_⟩
  · unfold readFileTool
    exact sandboxOutcome_of_shape fs workDir p _
  · unfold writeFileTool
    exact sandboxOutcome_of_shape fs workDir p _
  · unfold listDirectoryTool
    exact sandboxOutcome_of_shape fs workDir p _
  · unfold applyPatchTool
    exact sandboxOutcome_of_shape fs workDir p _
  · unfold grepTool
    exact sandboxOutcome_of_shape fs workDir p _

/-- C2 witness: the five tools at the concrete path `sub/x.txt` against
work dir `/work` and small concrete oracles. -/
theorem path_tools_sandbox_witness :
    (∀ q ∈ (readFileTool sandboxFsW sandboxIoW ["work"] sandboxPW).2,
      insidePath sandboxFsW ["work"] q) ∧
    (∀ q ∈ (listDirectoryTool sandboxFsW readDirW ["work"] sandboxPW).2,
      insidePath sandboxFsW ["work"] q) ∧
    (∀ q ∈ (applyPatchTool sandboxFsW readFileW writeFileW ["work"] sandboxPW "old" "new").2,
      insidePath sandboxFsW ["work"] q) ∧
    sandboxOutcome sandboxFsW ["work"] sandboxPW
      (readFileTool sandboxFsW sandboxIoW ["work"] sandboxPW) ∧
    sandboxOutcome sandboxFsW ["work"] sandboxPW
      (writeFileTool sandboxFsW mkdirAllW writeFileW ["work"] sandboxPW "c") ∧
    sandboxOutcome sandboxFsW ["work"] sandboxPW
      (listDirectoryTool sandboxFsW readDirW ["work"] sandboxPW) ∧
    sandboxOutcome sandboxFsW ["work"] sandboxPW
      (applyPatchTool sandboxFsW readFileW writeFileW ["work"] sandboxPW "old" "new") ∧
    sandboxOutcome sandboxFsW ["work"] sandboxPW
      (grepTool sandboxFsW reCompileW includeMatchW walkW ["work"] sandboxPW "old") :=
  path_tools_sandbox sandboxFsW sandboxIoW mkdirAllW writeFileW readDirW readFileW
    reCompileW includeMatchW walkW ["work"] sandboxPW "c" "old" "new" "old"

theorem addMessage_no_trim (maxMessages : Nat) (msgs : List Message)
    (role content : String) (h : msgs.length + 1 ≤ maxMessages) :
    addMessage maxMessages msgs role content = msgs ++ [{ role := role, content := content }] := by
  unfold addMessage trimMessages
  rw [if_neg (by simp; omega)]

theorem addToolCallMessage_no_trim (maxMessages : Nat) (msgs : List Message)
    (role content : String) (toolCalls : List ToolCall)
    (h : msgs.length + 1 ≤ maxMessages) :
    addToolCallMessage maxMessages msgs role content toolCalls =
      msgs ++ [{ role := role, content := content, toolCalls := toolCalls }] := by
  unfold addToolCallMessage trimMessages
  rw [if_neg (by simp; omega)]

theorem foldl_tool_messages (maxMessages : Nat)
    (toolExec : ToolCall → Except String String) :
    ∀ (tcs : List ToolCall) (acc : List Message),
      acc.length + tcs.length ≤ maxMessages →
      tcs.foldl (fun acc tc =>
          addMessage maxMessages acc "tool" (toolResultMessage toolExec tc).content) acc =
        acc ++ tcs.map (toolResultMessage toolExec) := by
  intro tcs
  induction tcs with
  | nil => intro acc _; simp
  | cons tc rest ih =>
    intro acc hlen
    simp only [List.foldl_cons, List.map_cons]
    have hstep : addMessage maxMessages acc "tool" (toolResultMessage toolExec tc).content =
        acc ++ [toolResultMessage toolExec tc] := by
      rw [addMessage_no_trim _ _ _ _ (by simp at hlen; omega)]
      rfl
    rw [hstep, ih (acc ++ [toolResultMessage toolExec tc]) (by simp at hlen ⊢; omega)]
    simp

/-- C5: on a turn whose first LLM response carries `K > 0` tool calls (and
the session stays under `max_messages`), exactly `K` `tool`-role messages
are appended, one per tool call and in the response's order, before the
second and final LLM invocation; that second invocation receives no tool
definitions and sees the session including all `K` tool messages; and its
content is appended as the assistant reply and returned. -/
theorem agent_tool_loop (maxMessages : Nat) (provider : Nat → Except String LLMResponse)
    (toolExec : ToolCall → Except String String) (sysPrompt composed : String)
    (defs : List ToolDef) (msgs : List Message) (content : String) (r1 r2 : LLMResponse)
    (h0 : provider 0 = .ok r1) (hK : r1.toolCalls ≠ [])
    (h1 : provider 1 = .ok r2)
    (hlen : msgs.length + 3 + r1.toolCalls.length ≤ maxMessages) :
    processMessage maxMessages provider toolExec sysPrompt composed defs msgs content =
      (.ok r2.content,
       ((msgs ++ [{ role := "user", content := content }]
           ++ [{ role := "assistant", content := r1.content, toolCalls := r1.toolCalls }]
           ++ r1.toolCalls.map (toolResultMessage toolExec))
         ++ [{ role := "assistant", content := r2.content }]),
       [(buildMessages sysPrompt composed (msgs ++ [{ role := "user", content := content }]), defs),
        (buildMessages sysPrompt composed
          (msgs ++ [{ role := "user", content := content }]
            ++ [{ role := "assistant", content := r1.content, toolCalls := r1.toolCalls }]
            ++ r1.toolCalls.map (toolResultMessage toolExec)), [])]) := by
  have hne : r1.toolCalls.isEmpty = false := by
    cases hcalls : r1.toolCalls with
    | nil => exact absurd hcalls hK
    | cons a l => simp [List.isEmpty]
  unfold processMessage
  rw [h0]
  simp only [hne, Bool.false_eq_true, if_false]
  rw [h1]
  have e1 : addMessage maxMessages msgs "user" content =
      msgs ++ [{ role := "user", content := content }] :=
    addMessage_no_trim _ _ _ _ (by omega)
  rw [e1]
  have e2 : addToolCallMessage maxMessages (msgs ++ [{ role := "user", content := content }])
      "assistant" r1.content r1.toolCalls =
      (msgs ++ [{ role := "user", content := content }]) ++
        [{ role := "assistant", content := r1.content, toolCalls := r1.toolCalls }] :=
    addToolCallMessage_no_trim _ _ _ _ _ (by simp; omega)
  rw [e2]
  have e3 := foldl_tool_messages maxMessages toolExec r1.toolCalls
    ((msgs ++ [{ role := "user", content := content }]) ++
      [{ role := "assistant", content := r1.content, toolCalls := r1.toolCalls }])
    (by simp; omega)
  rw [e3]
  have e4 : addMessage maxMessages
      (((msgs ++ [{ role := "user", content := content }]) ++
        [{ role := "assistant", content := r1.content, toolCalls := r1.toolCalls }]) ++
        r1.toolCalls.map (toolResultMessage toolExec))
      "assistant" r2.content =
      (((msgs ++ [{ role := "user", content := content }]) ++
        [{ role := "assistant", content := r1.content, toolCalls := r1.toolCalls }]) ++
        r1.toolCalls.map (toolResultMessage toolExec)) ++
        [{ role := "assistant", content := r2.content }] :=
    addMessage_no_trim _ _ _ _ (by simp; omega)
  dsimp only
  rw [e4]

/-- C5 witness: a turn with two tool calls at `max_messages = 20`:
the trace has exactly two LLM invocations, the second without tool
definitions, and two ordered `tool` messages sit between them. -/
theorem agent_tool_loop_witness :
    (providerW 0 = .ok respW1 ∧ respW1.toolCalls ≠ [] ∧ providerW 1 = .ok respW2 ∧
     ([] : List Message).length + 3 + respW1.toolCalls.length ≤ 20) ∧
    processMessage 20 providerW toolExecW "p" "sys" [⟨"read_file", "reads"⟩] [] "hello" =
      (.ok respW2.content,
       (([] ++ [{ role := "user", content := "hello" }]
           ++ [{ role := "assistant", content := respW1.content, toolCalls := respW1.toolCalls }]
           ++ respW1.toolCalls.map (toolResultMessage toolExecW))
         ++ [{ role := "assistant", content := respW2.content }]),
       [(buildMessages "p" "sys" ([] ++ [{ role := "user", content := "hello" }]), [⟨"read_file", "reads"⟩]),
        (buildMessages "p" "sys"
          ([] ++ [{ role := "user", content := "hello" }]
            ++ [{ role := "assistant", content := respW1.content, toolCalls := respW1.toolCalls }]
            ++ respW1.toolCalls.map (toolResultMessage toolExecW)), [])]) :=
  ⟨⟨rfl, by decide, rfl, by decide⟩,
   agent_tool_loop 20 providerW toolExecW "p" "sys" [⟨"read_file", "reads"⟩] [] "hello"
     respW1 respW2 rfl (by decide) rfl (by decide)⟩

theorem runAttempts_all_fail (send : Nat → SendResult) :
    ∀ (fuel start : Nat), (∀ i, (send i).isFailure = true) →
      runAttempts send fuel start =
        (.error "llm request failed after retries", fuel,
         (List.range (start + fuel)).drop (max start 1)) := by
  intro fuel
  induction fuel with
  | zero =>
    intro start h
    simp [runAttempts, List.drop_eq_nil_of_le]
  | succ fuel ih =>
    intro start h
    unfold runAttempts
    cases hsend : send start with
    | success resp =>
      have := h start
      rw [hsend] at this
      simp [SendResult.isFailure] at this
    | failure st =>
      rw [ih (start + 1) h]
      simp only [Prod.mk.injEq]
      refine ⟨trivial, trivial, ?_⟩
      by_cases hs : start > 0
      · rw [if_pos hs]
        have hmax1 : max start 1 = start := by omega
        have hmax2 : max (start + 1) 1 = start + 1 := by omega
        rw [hmax1, hmax2]
        have hlt : start < (List.range (start + (fuel + 1))).length := by
          simp
        rw [List.drop_eq_getElem_cons hlt]
        have harr : start + 1 + fuel = start + (fuel + 1) := by omega
        rw [harr]
        simp [List.getElem_range]
      · have h0 : start = 0 := by omega
        subst h0
        simp [Nat.add_comm]

/-- C6 counterexample: with `max_retries = 2` a request answered by HTTP
400 (a 4xx) on every attempt is still attempted three times — the claim's
"a 4xx-class response surfaces immediately without further attempts" fails
on the code, which retries every error alike. -/
theorem retry_4xx_counterexample :
    (doRequest 2 (fun _ : Nat => SendResult.failure (some 400))).2.1 = 3 ∧
    ¬ (doRequest 2 (fun _ : Nat => SendResult.failure (some 400))).2.1 = 1 := by
  constructor <;> decide

/-- C6 amended: the client makes at most `max_retries + 1` attempts and
sleeps `attempt` seconds (linear, base one second) before each retry, but
every failed attempt — transport error or any non-200 HTTP status, 4xx and
5xx alike — is retried: when all attempts fail (for example with constant
4xx responses) the error surfaces only after exactly `max_retries + 1`
attempts with sleeps `1, 2, …, max_retries` seconds. -/
theorem retry_policy_amended (maxRetries : Nat) (send : Nat → SendResult)
    (hAllFail : ∀ i, (send i).isFailure = true) :
    (doRequest maxRetries send).2.1 ≤ maxRetries + 1 ∧
    doRequest maxRetries send =
      (.error "llm request failed after retries", maxRetries + 1,
       (List.range (maxRetries + 1)).drop 1) := by
  have h := runAttempts_all_fail send (maxRetries + 1) 0 hAllFail
  unfold doRequest
  rw [h]
  simp

/-- C6 amended witness: three attempts, sleeping 1 s then 2 s, for a
provider that always answers HTTP 400. -/
theorem retry_policy_amended_witness :
    (∀ i, ((fun _ : Nat => SendResult.failure (some 400)) i).isFailure = true) ∧
    ((doRequest 2 (fun _ : Nat => SendResult.failure (some 400))).2.1 ≤ 3 ∧
     doRequest 2 (fun _ : Nat => SendResult.failure (some 400)) =
       (.error "llm request failed after retries", 3, (List.range 3).drop 1)) :=
  ⟨fun _ => rfl, retry_policy_amended 2 (fun _ : Nat => SendResult.failure (some 400)) (fun _ => rfl)⟩

/-- C7 counterexample: with `max_file_size = 3` and no existing daily
note, `WriteDailyNote` accepts a write whose stored section is 24 bytes:
the call succeeds and the file ends up over the cap, so neither "no memory
file ever exceeds max_file_size" nor "a write that would exceed the cap
receives an error" holds — the code checks only the pre-existing size. -/
theorem write_daily_exceeds_cap_counterexample :
    writeDailyNote ⟨"mem", 3⟩ ⟨[]⟩ "2026-01-01" "abcdefgh" "12:00:00" =
      .ok ⟨[("memory/2026-01-01.md", "\n### 12:00:00\n\nabcdefgh\n")]⟩ ∧
    (((⟨[("memory/2026-01-01.md", "\n### 12:00:00\n\nabcdefgh\n")]⟩ : MemState).lookup
        (dailyPath "2026-01-01")).getD "").length > 3 := by
  constructor
  · rfl
  · decide

/-- C7 amended: `MEMORY.md` never exceeds the cap — `write_longterm`
errors on content over `max_file_size` and `append_longterm` errors when
the combined body would exceed it, each leaving the store unchanged (the
Go checks precede every write), and any successful long-term write leaves
the file at `≤ max_file_size` bytes; `write_daily`, however, only rejects
when the existing daily file already exceeds the cap (leaving it
unchanged), so one append can push a daily note past `max_file_size`. -/
theorem memory_size_cap_amended (m : MemManager) (st : MemState)
    (content timestamp date : String) (henabled : m.memoryDir ≠ "") :
    (content.length > m.maxFileSize →
      writeLongTermMemory m st content = .error "memory content too large") ∧
    (∀ st', writeLongTermMemory m st content = .ok st' →
      ((st'.lookup longTermPath).getD "").length ≤ m.maxFileSize) ∧
    (∀ st', appendToLongTermMemory m st content timestamp = .ok st' →
      ((st'.lookup longTermPath).getD "").length ≤ m.maxFileSize) ∧
    (writeDailyNote m st date content timestamp = .error "daily note file too large" ↔
      (((st.lookup (dailyPath date)).getD "").length > m.maxFileSize ∧
        (st.lookup (dailyPath date)).isSome)) := by
  have hlt : ∀ c st', writeLongTermMemory m st c = .ok st' →
      ((st'.lookup longTermPath).getD "").length ≤ m.maxFileSize := by
    intro c st' h
    unfold writeLongTermMemory at h
    rw [if_neg henabled] at h
    by_cases hsz : c.length > m.maxFileSize
    · rw [if_pos hsz] at h; exact absurd h (by simp)
    · rw [if_neg hsz] at h
      simp only [Except.ok.injEq] at h
      subst h
      unfold MemState.lookup MemState.setFile
      simp [List.find?_cons, longTermPath]
      omega
  refine ⟨?_, hlt content, ?_, ?_⟩
  · intro hsz
    unfold writeLongTermMemory
    rw [if_neg henabled, if_pos hsz]
  · intro st' h
    unfold appendToLongTermMemory at h
    rw [if_neg henabled] at h
    exact hlt _ st' h
  · unfold writeDailyNote
    rw [if_neg henabled]
    constructor
    · intro h
      by_cases hc : ((st.lookup (dailyPath date)).getD "").length > m.maxFileSize ∧
          (st.lookup (dailyPath date)).isSome
      · exact hc
      · rw [if_neg hc] at h
        exact absurd h (by simp)
    · intro hc
      rw [if_pos hc]

/-- C7 amended witness: cap 3, a long-term write of 5 bytes errors, a
write of 2 bytes lands under the cap, an append stays capped, and a daily
write on an oversized existing file errors on exactly that condition. -/
theorem memory_size_cap_amended_witness :
    (("abcde".length > 3 →
      writeLongTermMemory ⟨"mem", 3⟩ ⟨[]⟩ "abcde" = .error "memory content too large") ∧
     (∀ st', writeLongTermMemory ⟨"mem", 3⟩ ⟨[]⟩ "abcde" = .ok st' →
       ((st'.lookup longTermPath).getD "").length ≤ 3) ∧
     (∀ st', appendToLongTermMemory ⟨"mem", 3⟩ ⟨[]⟩ "abcde" "t" = .ok st' →
       ((st'.lookup longTermPath).getD "").length ≤ 3) ∧
     (writeDailyNote ⟨"mem", 3⟩ ⟨[]⟩ "2026-01-01" "abcde" "t" = .error "daily note file too large" ↔
       ((((⟨[]⟩ : MemState).lookup (dailyPath "2026-01-01")).getD "").length > 3 ∧
         ((⟨[]⟩ : MemState).lookup (dailyPath "2026-01-01")).isSome))) :=
  memory_size_cap_amended ⟨"mem", 3⟩ ⟨[]⟩ "abcde" "t" "2026-01-01" (by decide)

/-- C10: with the memory feature disabled (`memoryDir = ""`, the
`IsEnabled` test), every write operation returns success leaving the state
untouched (no file is written), and every read operation returns the empty
string without error. -/
theorem memory_disabled_noop (m : MemManager) (st : MemState)
    (date content timestamp : String) (dates : Nat → String)
    (hdisabled : m.memoryDir = "") :
    m.isEnabled = false ∧
    writeDailyNote m st date content timestamp = .ok st ∧
    writeLongTermMemory m st content = .ok st ∧
    appendToLongTermMemory m st content timestamp = .ok st ∧
    readDailyNote m st date = .ok "" ∧
    readLongTermMemory m st = .ok "" ∧
    getMemoryContext m st dates = "" := by
  refine ⟨?_, ?_, ?_, ?_, ?_, ?_, ?_⟩
  · unfold MemManager.isEnabled
    simp [hdisabled]
  · unfold writeDailyNote; rw [if_pos hdisabled]
  · unfold writeLongTermMemory; rw [if_pos hdisabled]
  · unfold appendToLongTermMemory; rw [if_pos hdisabled]
  · unfold readDailyNote; rw [if_pos hdisabled]
  · unfold readLongTermMemory; rw [if_pos hdisabled]
  · unfold getMemoryContext; rw [if_pos hdisabled]

/-- C10 witness: a disabled manager over a non-empty state leaves
everything unchanged and reads empty. -/
theorem memory_disabled_noop_witness :
    ((⟨"", 100⟩ : MemManager).isEnabled = false ∧
     writeDailyNote ⟨"", 100⟩ ⟨[("MEMORY.md", "x")]⟩ "2026-01-01" "c" "t" = .ok ⟨[("MEMORY.md", "x")]⟩ ∧
     writeLongTermMemory ⟨"", 100⟩ ⟨[("MEMORY.md", "x")]⟩ "c" = .ok ⟨[("MEMORY.md", "x")]⟩ ∧
     appendToLongTermMemory ⟨"", 100⟩ ⟨[("MEMORY.md", "x")]⟩ "c" "t" = .ok ⟨[("MEMORY.md", "x")]⟩ ∧
     readDailyNote ⟨"", 100⟩ ⟨[("MEMORY.md", "x")]⟩ "2026-01-01" = .ok "" ∧
     readLongTermMemory ⟨"", 100⟩ ⟨[("MEMORY.md", "x")]⟩ = .ok "" ∧
     getMemoryContext ⟨"", 100⟩ ⟨[("MEMORY.md", "x")]⟩ (fun _ => "2026-01-01") = "") :=
  memory_disabled_noop ⟨"", 100⟩ ⟨[("MEMORY.md", "x")]⟩ "2026-01-01" "c" "t"
    (fun _ => "2026-01-01") rfl

theorem waitForResponse_pending_through (sched : Nat → ConfStatus) :
    ∀ (fuel n : Nat), (∀ k, k ≤ confirmationTimeoutSeconds → sched k = .pending) →
      n + fuel = confirmationTimeoutSeconds + 2 → 1 ≤ n →
      n ≤ confirmationTimeoutSeconds + 1 →
      waitForResponse sched fuel n = some (false, .timeout) := by
  intro fuel
  induction fuel with
  | zero => intro n _ h2 _ h3; omega
  | succ fuel ih =>
    intro n hp h2 h1 h3
    unfold waitForResponse
    by_cases hgt : n > confirmationTimeoutSeconds
    · rw [if_pos hgt]
    · rw [if_neg hgt]
      have hpend : sched n = .pending := hp n (by omega)
      rw [if_neg (by simp [hpend])]
      exact ih (n + 1) hp (by omega) (by omega) (by omega)

/-- C8: the gate timeout is 300 seconds, and a confirmation request that
is still `pending` at every 1 Hz polling tick through its expiry resolves
for the waiting caller as not-approved, with the request's terminal state
recorded as `timeout`. -/
theorem confirmation_timeout (sched : Nat → ConfStatus)
    (hp : ∀ k, k ≤ confirmationTimeoutSeconds → sched k = .pending) :
    confirmationTimeoutSeconds = 300 ∧
    waitForResponse sched (confirmationTimeoutSeconds + 1) 1 = some (false, .timeout) :=
  ⟨rfl, waitForResponse_pending_through sched (confirmationTimeoutSeconds + 1) 1 hp
    (by omega) (by omega) (by omega)⟩

/-- C8 witness: a request nobody ever answers times out as not-approved. -/
theorem confirmation_timeout_witness :
    (∀ k, k ≤ confirmationTimeoutSeconds →
      (fun _ : Nat => ConfStatus.pending) k = ConfStatus.pending) ∧
    (confirmationTimeoutSeconds = 300 ∧
     waitForResponse (fun _ : Nat => ConfStatus.pending) (confirmationTimeoutSeconds + 1) 1 =
       some (false, .timeout)) :=
  ⟨fun _ _ => rfl, confirmation_timeout (fun _ : Nat => ConfStatus.pending) (fun _ _ => rfl)⟩

/-- C9: a panicking turn is caught (the process survives and the router
returns normally — the spec is right that the panic is contained), but the
caller receives the zero values `("", nil)`: an empty reply and **no**
error, contradicting the claim that the routed call returns an internal
error.  The recover runs in a deferred closure of a function with unnamed
result variables, so it cannot set an error — a slip against the spec's
stated propagation policy. -/
theorem router_panic_returns_nil_error :
    routerProcessMessage (.panicked "nil map write") = ("", none) ∧
    (routerProcessMessage (.panicked "nil map write")).2 = none :=
  ⟨rfl, rfl⟩

end Mujibot

